import Mathlib

/-!
Shallow embedding of the `otelmetricsecho` middleware (src/metrics.go).

A Go string is modelled as its byte sequence (`GoStr`), so Go `len` is list
length.  The Echo context, the HTTP request and the OpenTelemetry attribute
and measurement machinery are modelled as plain data; the two clock readings
taken by the middleware are passed explicitly, and metric emission is
modelled by returning the list of emitted measurements.  Machine-integer
overflow is immaterial to every statement proved here and is not modelled:
Go `int`/`int64` become `Int`.
-/

namespace OtelMetricsEcho

/-- A Go string: its sequence of bytes, each in 0..255.  Go `len` on a string
is the byte count, i.e. `List.length` here. -/
abbrev GoStr := List Nat

/-- UTF-8 bytes of U+FFFD, the replacement character, i.e. the Go literal
string used as replacement at src/metrics.go line 127. -/
def replacementChar : GoStr := [0xEF, 0xBF, 0xBD]

/-- Whether a byte is a UTF-8 continuation byte (0x80..0xBF).  Modelled from
the Go stdlib `unicode/utf8` acceptance of trailing bytes. -/
def isCont (b : Nat) : Bool := 0x80 ≤ b && b ≤ 0xBF

/-- Modelled from the Go stdlib `unicode/utf8` first-byte table used by
`DecodeRuneInString`: for a lead byte, the width of the encoded rune and the
accepted range of the second byte (later bytes always accept 0x80..0xBF).
`none` means the byte cannot start a valid encoding (0x80..0xC1, 0xF5..0xFF).
The table excludes overlong encodings and surrogates, exactly as Go does. -/
def leadInfo (b : Nat) : Option (Nat × Nat × Nat) :=
  if b ≤ 0x7F then some (1, 0, 0)
  else if 0xC2 ≤ b && b ≤ 0xDF then some (2, 0x80, 0xBF)
  else if b = 0xE0 then some (3, 0xA0, 0xBF)
  else if 0xE1 ≤ b && b ≤ 0xEC then some (3, 0x80, 0xBF)
  else if b = 0xED then some (3, 0x80, 0x9F)
  else if 0xEE ≤ b && b ≤ 0xEF then some (3, 0x80, 0xBF)
  else if b = 0xF0 then some (4, 0x90, 0xBF)
  else if 0xF1 ≤ b && b ≤ 0xF3 then some (4, 0x80, 0xBF)
  else if b = 0xF4 then some (4, 0x80, 0x8F)
  else none

/-- Whether a byte sequence is valid UTF-8 in the sense of the Go stdlib
decoder: a concatenation of complete valid encodings.  The recursion
consumes at least one byte per step; that bound is the fuel argument,
instantiated with the byte count in `utf8Valid`, keeping the function
structurally recursive. -/
def utf8ValidFuel : Nat → GoStr → Bool
  | 0, s => s.isEmpty
  | _ + 1, [] => true
  | fuel + 1, b0 :: rest =>
    match leadInfo b0 with
    | none => false
    | some (w, lo, hi) =>
      if w = 1 then utf8ValidFuel fuel rest
      else
        match rest with
        | [] => false
        | b1 :: rest1 =>
          if !(lo ≤ b1 && b1 ≤ hi) then false
          else if w = 2 then utf8ValidFuel fuel rest1
          else
            match rest1 with
            | [] => false
            | b2 :: rest2 =>
              if !(isCont b2) then false
              else if w = 3 then utf8ValidFuel fuel rest2
              else
                match rest2 with
                | [] => false
                | b3 :: rest3 => if isCont b3 && w = 4 then utf8ValidFuel fuel rest3 else false

/-- Whether a byte sequence is valid UTF-8. -/
def utf8Valid (s : GoStr) : Bool := utf8ValidFuel s.length s

/-- Modelled from the Go stdlib `strings.ToValidUTF8` loop: walk the bytes,
copy each valid encoding verbatim (resetting the in-an-invalid-run flag),
and replace each maximal run of invalid bytes — the decoder reports each
such byte with width 1 — by a single copy of the replacement string.  The
flag records whether the previous byte was part of an invalid run.  The Go
loop terminates because every step consumes at least one byte; that bound
is made explicit as a fuel argument (instantiated with the byte count in
`toValidUTF8`), which keeps the function structurally recursive. -/
def sanitizeFuel : Nat → Bool → GoStr → GoStr
  | 0, _, _ => []
  | _ + 1, _, [] => []
  | fuel + 1, invalid, b0 :: rest =>
    match leadInfo b0 with
    | none => (if invalid then [] else replacementChar) ++ sanitizeFuel fuel true rest
    | some (w, lo, hi) =>
      if w = 1 then b0 :: sanitizeFuel fuel false rest
      else
        match rest with
        | [] => (if invalid then [] else replacementChar) ++ sanitizeFuel fuel true rest
        | b1 :: rest1 =>
          if !(lo ≤ b1 && b1 ≤ hi) then
            (if invalid then [] else replacementChar) ++ sanitizeFuel fuel true rest
          else if w = 2 then b0 :: b1 :: sanitizeFuel fuel false rest1
          else
            match rest1 with
            | [] => (if invalid then [] else replacementChar) ++ sanitizeFuel fuel true rest
            | b2 :: rest2 =>
              if !(isCont b2) then
                (if invalid then [] else replacementChar) ++ sanitizeFuel fuel true rest
              else if w = 3 then b0 :: b1 :: b2 :: sanitizeFuel fuel false rest2
              else
                match rest2 with
                | [] => (if invalid then [] else replacementChar) ++ sanitizeFuel fuel true rest
                | b3 :: rest3 =>
                  if isCont b3 && w = 4 then b0 :: b1 :: b2 :: b3 :: sanitizeFuel fuel false rest3
                  else (if invalid then [] else replacementChar) ++ sanitizeFuel fuel true rest

/-- Go `strings.ToValidUTF8(s, "�")` as called at src/metrics.go
line 127. -/
def toValidUTF8 (s : GoStr) : GoStr := sanitizeFuel s.length false s

/-- Go `*url.URL`, restricted to the one field the code reads. -/
structure URL where
  Path : GoStr
deriving DecidableEq

/-- Go `*http.Request`, restricted to the fields the code reads.  `URL` is an
optional pointer (`nil` modelled as `none`); `ContentLength` is the declared
`int64` content length, `-1` meaning unknown. -/
structure Request where
  URL : Option URL
  Method : GoStr
  Proto : GoStr
  Header : List (GoStr × List GoStr)
  Host : GoStr
  ContentLength : Int
deriving DecidableEq

/-- Go `r.URL.Path` as read at src/metrics.go line 111.  Echo always supplies
a non-nil URL on served requests; a nil URL (which would make the Go
expression panic) is mapped to the empty string to keep the model total. -/
def Request.urlPath (r : Request) : GoStr :=
  match r.URL with
  | some u => u.Path
  | none => []

/-- The Echo response state the code reads: `c.Response().Status` and
`c.Response().Size`. -/
structure Response where
  Status : Int
  Size : Int
deriving DecidableEq

/-- Go `*echo.HTTPError`, restricted to its `Code` field. -/
structure HTTPError where
  Code : Int
deriving DecidableEq

/-- A non-nil error returned by a handler.  `asHTTPError` is the result of
`errors.As(err, &httpError)` at src/metrics.go line 117: `some he` when the
error is or wraps an `*echo.HTTPError`, `none` otherwise. -/
structure HandlerError where
  asHTTPError : Option HTTPError
deriving DecidableEq

/-- The Echo context state the code reads: the request, the response
metadata, `c.Path()` (the matched route template) and `c.Scheme()`. -/
structure Context where
  request : Request
  response : Response
  path : GoStr
  scheme : GoStr
deriving DecidableEq

/-- An Echo handler.  `next(c)` may mutate the context (response status and
size, notably); the model returns the post-invocation context together with
the returned error (`none` for a nil error). -/
abbrev Handler := Context → Context × Option HandlerError

/-- Go type `LabelValueFunc func(c echo.Context, err error) string`
(src/metrics.go line 45). -/
abbrev LabelValueFunc := Context → Option HandlerError → GoStr

/-- Go struct `MiddlewareConfig` (src/metrics.go lines 36-43).  `LabelFuncs`
is a Go map iterated in unspecified order; it is modelled as a list of
key/function pairs in some iteration order.  The private `timeNow` clock is
modelled by passing the two clock readings explicitly to the per-request
run function. -/
structure MiddlewareConfig where
  Skipper : Option (Context → Bool)
  ServiceName : GoStr
  LabelFuncs : List (String × LabelValueFunc)
  DoNotUseRequestPathFor404 : Bool

/-- Bytes of the Go constant `defaultServiceName = "echo"`
(src/metrics.go line 24). -/
def defaultServiceName : GoStr := [101, 99, 104, 111]

/-- An OpenTelemetry attribute value: string or 64-bit int. -/
inductive AttrValue
  | str (s : GoStr)
  | int (i : Int)
deriving DecidableEq

/-- An OpenTelemetry attribute: key/value pair.  Keys are the semantic
convention constants or label-map keys, all ordinary text, kept as Lean
strings. -/
structure KeyValue where
  key : String
  value : AttrValue
deriving DecidableEq

/-- One measurement emission: a counter `Add` or a histogram `Record`,
with the instrument name, the measured value and the attribute set. -/
inductive Emission
  | counterAdd (name : String) (incr : Int) (attrs : List KeyValue)
  | histRecord (name : String) (value : ℚ) (attrs : List KeyValue)
deriving DecidableEq

/-- The attribute set carried by an emission. -/
def Emission.attrs : Emission → List KeyValue
  | .counterAdd _ _ a => a
  | .histRecord _ _ a => a

/-- The observable outcome of one middleware invocation: the value returned
to the caller and the measurements emitted, in emission order. -/
structure RunResult where
  result : Option HandlerError
  emissions : List Emission
deriving DecidableEq

/-- Go `computeApproximateRequestSize` (src/metrics.go lines 152-173),
translated clause by clause: path length when the URL pointer is non-nil,
plus method, protocol, header names and values, and host lengths, plus the
declared content length whenever it differs from -1. -/
def computeApproximateRequestSize (r : Request) : Int :=
  let s : Int :=
    match r.URL with
    | some u => (u.Path.length : Int)
    | none => 0
  let s := s + (r.Method.length : Int)
  let s := s + (r.Proto.length : Int)
  let s := r.Header.foldl
    (fun acc nv => acc + (nv.1.length : Int)
      + nv.2.foldl (fun a v => a + (v.length : Int)) 0) s
  let s := s + (r.Host.length : Int)
  if r.ContentLength ≠ -1 then s + r.ContentLength else s

/-- The status-attribute computation of src/metrics.go lines 114-123:
start from the response's written status; on a non-nil error, replace it
with the `*echo.HTTPError` code when one can be extracted, then coerce 0
and 200 to 500. -/
def recordedStatus (responseStatus : Int) (err : Option HandlerError) : Int :=
  match err with
  | none => responseStatus
  | some e =>
    let status :=
      match e.asHTTPError with
      | some httpError => httpError.Code
      | none => responseStatus
    if status = 0 || status = 200 then 500 else status

/-- The route-label computation of src/metrics.go lines 107-112: the matched
route template, falling back to the raw request path when the template is
empty and the fallback is not disabled. -/
def routeLabel (doNotUse404 : Bool) (path rawPath : GoStr) : GoStr :=
  if path = [] && !doNotUse404 then rawPath else path

/-- Whether the configured skip predicate bypasses this request
(src/metrics.go line 97: `conf.Skipper != nil && conf.Skipper(c)`). -/
def skipApplies (conf : MiddlewareConfig) (c : Context) : Bool :=
  match conf.Skipper with
  | some skipper => skipper c
  | none => false

/-- The attribute-set construction of src/metrics.go lines 125-136, applied
to the post-handler context `c2` and the handler's returned error: service
name, sanitized route, method, the scheme under the host attribute key, the
status under both status-code keys, and one string attribute per entry of
the label-function map, each function applied to the context and the
error. -/
def sharedAttrs (conf : MiddlewareConfig) (c2 : Context) (err : Option HandlerError) :
    List KeyValue :=
  let url := routeLabel conf.DoNotUseRequestPathFor404 c2.path c2.request.urlPath
  let status := recordedStatus c2.response.Status err
  [ ⟨"service.name", .str conf.ServiceName⟩,
    ⟨"http.route", .str (toValidUTF8 url)⟩,
    ⟨"http.request.method", .str c2.request.Method⟩,
    ⟨"host.name", .str c2.scheme⟩,
    ⟨"http.status_code", .int status⟩,
    ⟨"http.response.status_code", .int status⟩ ]
  ++ conf.LabelFuncs.map (fun kv => ⟨kv.1, .str (kv.2 c2 err)⟩)

/-- The per-request body of the middleware closure (src/metrics.go lines
96-148).  `t1` and `t2` are the two `conf.timeNow()` readings, in
nanoseconds; elapsed seconds are their difference over 1e9 (Go divides the
nanosecond duration by `float64(time.Second)`; exact rational arithmetic
stands in for float64, which no statement here depends on). -/
def middlewareRun (conf : MiddlewareConfig) (next : Handler) (c : Context)
    (t1 t2 : Int) : RunResult :=
  if skipApplies conf c then
    { result := (next c).2, emissions := [] }
  else
    let reqSz := computeApproximateRequestSize c.request
    let nres := next c
    let c2 := nres.1
    let err := nres.2
    let elapsed : ℚ := ((t2 - t1 : Int) : ℚ) / 1000000000
    let attrs : List KeyValue := sharedAttrs conf c2 err
    { result := err,
      emissions :=
        [ .counterAdd "requests_total" 1 attrs,
          .histRecord "request_size_bytes" (reqSz : ℚ) attrs,
          .histRecord "response_size_bytes" (c2.response.Size : ℚ) attrs,
          .histRecord "request_duration_seconds" elapsed attrs ] }

/-- The defaulting performed by `ToMiddleware` before building the closure
(src/metrics.go lines 66-72): empty service name becomes the default.  (The
`timeNow` default is the wall clock, modelled by the explicit readings.) -/
def resolveConfig (conf : MiddlewareConfig) : MiddlewareConfig :=
  if conf.ServiceName = [] then { conf with ServiceName := defaultServiceName } else conf

/-- The errors returned by the meter when creating the four instruments
(src/metrics.go lines 74-93).  The Go code discards all four with `_`. -/
structure InstrumentErrors where
  requestCountErr : Option String
  requestDurationErr : Option String
  responseSizeErr : Option String
  requestSizeErr : Option String

/-- Go `MiddlewareConfig.ToMiddleware` (src/metrics.go lines 62-150):
applies the defaults, creates the instruments — discarding any creation
errors — and returns the per-request closure together with a nil error. -/
def ToMiddleware (conf : MiddlewareConfig) (_errs : InstrumentErrors) :
    (Handler → Context → Int → Int → RunResult) × Option String :=
  (fun next c t1 t2 => middlewareRun (resolveConfig conf) next c t1 t2, none)

/-- Go `NewMiddlewareWithConfig` (src/metrics.go lines 53-60): calls
`ToMiddleware` and panics on a non-nil error, modelled as `Except.error`. -/
def NewMiddlewareWithConfig (conf : MiddlewareConfig) (errs : InstrumentErrors) :
    Except String (Handler → Context → Int → Int → RunResult) :=
  match ToMiddleware conf errs with
  | (mw, none) => .ok mw
  | (_, some e) => .error e

/-- First attribute with the given key, as OpenTelemetry attribute lookup
would see it. -/
def lookupAttr (key : String) : List KeyValue → Option AttrValue
  | [] => none
  | kv :: rest => if kv.key = key then some kv.value else lookupAttr key rest

/-- The attribute set of the first emission of a run (all four emissions
share one attribute set). -/
def firstAttrs (res : RunResult) : List KeyValue :=
  match res.emissions with
  | [] => []
  | e :: _ => e.attrs

/-- The route attribute recorded by a run. -/
def routeAttrOf (res : RunResult) : Option AttrValue :=
  lookupAttr "http.route" (firstAttrs res)

/-- The status attribute recorded by a run (under the current-conventions
key). -/
def statusAttrOf (res : RunResult) : Option AttrValue :=
  lookupAttr "http.response.status_code" (firstAttrs res)

/-- Sum of header name and value byte lengths, the header contribution to
the approximate request size. -/
def headerBytes (hs : List (GoStr × List GoStr)) : Int :=
  hs.foldl
    (fun acc nv => acc + (nv.1.length : Int)
      + nv.2.foldl (fun a v => a + (v.length : Int)) 0) 0

/-- The request-size formula in the specification's words: URL path length
(zero when the URL is absent), method, protocol, header and host lengths,
and the declared content length only when it is non-negative.  Written from
the spec, for comparison with `computeApproximateRequestSize`. -/
def specRequestSize (r : Request) : Int :=
  (match r.URL with
    | some u => (u.Path.length : Int)
    | none => 0)
  + (r.Method.length : Int) + (r.Proto.length : Int)
  + headerBytes r.Header + (r.Host.length : Int)
  + (if 0 ≤ r.ContentLength then r.ContentLength else 0)

/-- Changing the fuel does not change the verdict, as long as it covers the
length of the input. -/
theorem utf8ValidFuel_irrel (f : Nat) :
    ∀ s : GoStr, s.length ≤ f → utf8ValidFuel f s = utf8ValidFuel s.length s := by
  induction f using Nat.strongRecOn with
  | _ f ih =>
    intro s hs
    match f, s with
    | 0, s =>
      have : s = [] := List.eq_nil_of_length_eq_zero (Nat.le_zero.mp hs)
      subst this
      rfl
    | f + 1, [] => rfl
    | f + 1, b0 :: rest =>
      have hlen : rest.length ≤ f := by simp at hs; omega
      show utf8ValidFuel (f + 1) (b0 :: rest) = utf8ValidFuel (b0 :: rest).length (b0 :: rest)
      simp only [List.length_cons]
      rw [utf8ValidFuel, utf8ValidFuel]
      cases hl : leadInfo b0 with
      | none => rfl
      | some p =>
        obtain ⟨w, lo, hi⟩ := p
        by_cases hw1 : w = 1
        · subst hw1
          simp only [if_pos]
          rw [ih f (by omega) rest hlen]
        · simp only [if_neg hw1]
          cases rest with
          | nil => rfl
          | cons b1 rest1 =>
            cases hb1 : (lo ≤ b1 && b1 ≤ hi) with
            | false => simp only [hb1, Bool.not_false, if_true]
            | true =>
              simp only [hb1, Bool.not_true, Bool.false_eq_true, if_false]
              by_cases hw2 : w = 2
              · subst hw2
                simp only [if_pos]
                have h1 : rest1.length ≤ f := by simp at hs; omega
                simp only [List.length_cons]
                rw [ih f (by omega) rest1 h1,
                    ih (rest1.length + 1) (by simp at hs; omega) rest1 (by omega)]
              · simp only [if_neg hw2]
                cases rest1 with
                | nil => rfl
                | cons b2 rest2 =>
                  cases hb2 : isCont b2 with
                  | false => simp only [hb2, Bool.not_false, if_true]
                  | true =>
                    simp only [hb2, Bool.not_true, Bool.false_eq_true, if_false]
                    by_cases hw3 : w = 3
                    · subst hw3
                      simp only [if_pos]
                      have h2 : rest2.length ≤ f := by simp at hs; omega
                      simp only [List.length_cons]
                      rw [ih f (by omega) rest2 h2,
                          ih (rest2.length + 1 + 1) (by simp at hs; omega) rest2 (by omega)]
                    · simp only [if_neg hw3]
                      cases rest2 with
                      | nil => rfl
                      | cons b3 rest3 =>
                        cases hb34 : (isCont b3 && w = 4) with
                        | false => simp only [hb34, Bool.false_eq_true, if_false]
                        | true =>
                          simp only [hb34, if_true]
                          have h3 : rest3.length ≤ f := by simp at hs; omega
                          simp only [List.length_cons]
                          rw [ih f (by omega) rest3 h3,
                              ih (rest3.length + 1 + 1 + 1) (by simp at hs; omega) rest3
                                (by omega)]

/-- A one-byte (ASCII) encoding at the front peels off. -/
theorem utf8Valid_cons1 (b0 lo hi : Nat) (t : GoStr) (hl : leadInfo b0 = some (1, lo, hi)) :
    utf8Valid (b0 :: t) = utf8Valid t := by
  show utf8ValidFuel (b0 :: t).length (b0 :: t) = utf8Valid t
  simp only [List.length_cons]
  rw [utf8ValidFuel, hl]
  simp [utf8Valid]

/-- A two-byte encoding at the front peels off. -/
theorem utf8Valid_cons2 (b0 b1 lo hi : Nat) (t : GoStr) (hl : leadInfo b0 = some (2, lo, hi))
    (hb1 : (lo ≤ b1 && b1 ≤ hi) = true) :
    utf8Valid (b0 :: b1 :: t) = utf8Valid t := by
  show utf8ValidFuel (b0 :: b1 :: t).length (b0 :: b1 :: t) = utf8Valid t
  simp only [List.length_cons]
  rw [utf8ValidFuel, hl]
  simp only [hb1]
  simp only [Bool.not_true, Bool.false_eq_true, if_false]
  simp only [show ((2 : Nat) = 1) = False by simp, show ((2 : Nat) = 2) = True by simp,
    if_false, if_true]
  rw [utf8ValidFuel_irrel (t.length + 1) t (by omega)]
  rfl

/-- A three-byte encoding at the front peels off. -/
theorem utf8Valid_cons3 (b0 b1 b2 lo hi : Nat) (t : GoStr) (hl : leadInfo b0 = some (3, lo, hi))
    (hb1 : (lo ≤ b1 && b1 ≤ hi) = true) (hb2 : isCont b2 = true) :
    utf8Valid (b0 :: b1 :: b2 :: t) = utf8Valid t := by
  show utf8ValidFuel (b0 :: b1 :: b2 :: t).length (b0 :: b1 :: b2 :: t) = utf8Valid t
  simp only [List.length_cons]
  rw [utf8ValidFuel, hl]
  simp only [hb1, hb2, Bool.not_true, Bool.false_eq_true, if_false]
  simp only [show ((3 : Nat) = 1) = False by simp, show ((3 : Nat) = 2) = False by simp,
    show ((3 : Nat) = 3) = True by simp, if_false, if_true]
  rw [utf8ValidFuel_irrel (t.length + 1 + 1) t (by omega)]
  rfl

/-- A four-byte encoding at the front peels off. -/
theorem utf8Valid_cons4 (b0 b1 b2 b3 lo hi : Nat) (t : GoStr)
    (hl : leadInfo b0 = some (4, lo, hi)) (hb1 : (lo ≤ b1 && b1 ≤ hi) = true)
    (hb2 : isCont b2 = true) (hb3 : isCont b3 = true) :
    utf8Valid (b0 :: b1 :: b2 :: b3 :: t) = utf8Valid t := by
  show utf8ValidFuel (b0 :: b1 :: b2 :: b3 :: t).length (b0 :: b1 :: b2 :: b3 :: t) = utf8Valid t
  simp only [List.length_cons]
  rw [utf8ValidFuel, hl]
  simp only [hb1, hb2, hb3, Bool.not_true, Bool.false_eq_true, if_false, Bool.true_and]
  simp only [show ((4 : Nat) = 1) = False by simp, show ((4 : Nat) = 2) = False by simp,
    show ((4 : Nat) = 3) = False by simp, show ((4 : Nat) = 4) = True by simp,
    if_false, if_true, decide_True, if_pos]
  rw [utf8ValidFuel_irrel (t.length + 1 + 1 + 1) t (by omega)]
  rfl

/-- A byte that cannot start an encoding makes the sequence invalid. -/
theorem utf8Valid_inv_none (b0 : Nat) (t : GoStr) (hl : leadInfo b0 = none) :
    utf8Valid (b0 :: t) = false := by
  show utf8ValidFuel (b0 :: t).length (b0 :: t) = false
  simp only [List.length_cons]
  rw [utf8ValidFuel, hl]

/-- A multi-byte lead with nothing after it is invalid. -/
theorem utf8Valid_inv_nil1 (b0 w lo hi : Nat) (hl : leadInfo b0 = some (w, lo, hi))
    (hw1 : w ≠ 1) : utf8Valid [b0] = false := by
  show utf8ValidFuel [b0].length [b0] = false
  simp only [List.length_cons, List.length_nil]
  rw [utf8ValidFuel, hl]
  simp only [if_neg hw1]

/-- A multi-byte lead with an out-of-range second byte is invalid. -/
theorem utf8Valid_inv_b1 (b0 b1 w lo hi : Nat) (t : GoStr) (hl : leadInfo b0 = some (w, lo, hi))
    (hw1 : w ≠ 1) (hb1 : (lo ≤ b1 && b1 ≤ hi) = false) :
    utf8Valid (b0 :: b1 :: t) = false := by
  show utf8ValidFuel (b0 :: b1 :: t).length (b0 :: b1 :: t) = false
  simp only [List.length_cons]
  rw [utf8ValidFuel, hl]
  simp only [if_neg hw1, hb1, Bool.not_false, if_true]

/-- A three-or-four-byte lead with only one trailing byte is invalid. -/
theorem utf8Valid_inv_nil2 (b0 b1 w lo hi : Nat) (hl : leadInfo b0 = some (w, lo, hi))
    (hw1 : w ≠ 1) (hw2 : w ≠ 2) (hb1 : (lo ≤ b1 && b1 ≤ hi) = true) :
    utf8Valid [b0, b1] = false := by
  show utf8ValidFuel [b0, b1].length [b0, b1] = false
  simp only [List.length_cons, List.length_nil]
  rw [utf8ValidFuel, hl]
  simp only [if_neg hw1, if_neg hw2, hb1, Bool.not_true, Bool.false_eq_true, if_false]

/-- A bad third byte in a three-or-four-byte encoding is invalid. -/
theorem utf8Valid_inv_b2 (b0 b1 b2 w lo hi : Nat) (t : GoStr)
    (hl : leadInfo b0 = some (w, lo, hi)) (hw1 : w ≠ 1) (hw2 : w ≠ 2)
    (hb1 : (lo ≤ b1 && b1 ≤ hi) = true) (hb2 : isCont b2 = false) :
    utf8Valid (b0 :: b1 :: b2 :: t) = false := by
  show utf8ValidFuel (b0 :: b1 :: b2 :: t).length (b0 :: b1 :: b2 :: t) = false
  simp only [List.length_cons]
  rw [utf8ValidFuel, hl]
  simp only [if_neg hw1, if_neg hw2, hb1, hb2, Bool.not_true, Bool.not_false,
    Bool.false_eq_true, if_false, if_true]

/-- A four-byte lead with only two trailing bytes is invalid. -/
theorem utf8Valid_inv_nil3 (b0 b1 b2 w lo hi : Nat) (hl : leadInfo b0 = some (w, lo, hi))
    (hw1 : w ≠ 1) (hw2 : w ≠ 2) (hw3 : w ≠ 3)
    (hb1 : (lo ≤ b1 && b1 ≤ hi) = true) (hb2 : isCont b2 = true) :
    utf8Valid [b0, b1, b2] = false := by
  show utf8ValidFuel [b0, b1, b2].length [b0, b1, b2] = false
  simp only [List.length_cons, List.length_nil]
  rw [utf8ValidFuel, hl]
  simp only [if_neg hw1, if_neg hw2, if_neg hw3, hb1, hb2, Bool.not_true,
    Bool.false_eq_true, if_false]

/-- A bad fourth byte, or a width that is not four at this depth, is
invalid. -/
theorem utf8Valid_inv_b3 (b0 b1 b2 b3 w lo hi : Nat) (t : GoStr)
    (hl : leadInfo b0 = some (w, lo, hi)) (hw1 : w ≠ 1) (hw2 : w ≠ 2) (hw3 : w ≠ 3)
    (hb1 : (lo ≤ b1 && b1 ≤ hi) = true) (hb2 : isCont b2 = true)
    (hb34 : (isCont b3 && w = 4) = false) :
    utf8Valid (b0 :: b1 :: b2 :: b3 :: t) = false := by
  show utf8ValidFuel (b0 :: b1 :: b2 :: b3 :: t).length (b0 :: b1 :: b2 :: b3 :: t) = false
  simp only [List.length_cons]
  rw [utf8ValidFuel, hl]
  simp only [if_neg hw1, if_neg hw2, if_neg hw3, hb1, hb2, hb34, Bool.not_true,
    Bool.false_eq_true, if_false]

/-- Prepending the replacement character, itself a complete valid UTF-8
encoding, preserves validity of the remainder. -/
theorem utf8Valid_replacementChar_append (t : GoStr) :
    utf8Valid (replacementChar ++ t) = utf8Valid t := by
  show utf8Valid (0xEF :: 0xBF :: 0xBD :: t) = utf8Valid t
  exact utf8Valid_cons3 0xEF 0xBF 0xBD 0x80 0xBF t rfl rfl rfl

/-- What the sanitizer prepends on an invalid byte — the replacement
character when a fresh run starts, nothing inside a run — preserves
validity of the remainder. -/
theorem utf8Valid_invalid_front (inv : Bool) (t : GoStr) :
    utf8Valid ((if inv then [] else replacementChar) ++ t) = utf8Valid t := by
  cases inv
  · show utf8Valid (replacementChar ++ t) = utf8Valid t
    exact utf8Valid_replacementChar_append t
  · show utf8Valid ([] ++ t) = utf8Valid t
    rfl

/-- Output of the sanitizer is valid UTF-8, for any fuel covering the input
length and any initial run flag. -/
theorem sanitizeFuel_valid (fuel : Nat) :
    ∀ (inv : Bool) (s : GoStr), s.length ≤ fuel →
      utf8Valid (sanitizeFuel fuel inv s) = true := by
  induction fuel with
  | zero =>
    intro inv s h
    have hs : s = [] := List.eq_nil_of_length_eq_zero (Nat.le_zero.mp h)
    subst hs
    rfl
  | succ fuel ih =>
    intro inv s h
    cases s with
    | nil => rfl
    | cons b0 rest =>
      have hrest : rest.length ≤ fuel := by simp at h; omega
      rw [sanitizeFuel]
      cases hl : leadInfo b0 with
      | none =>
        rw [utf8Valid_invalid_front]
        exact ih true rest hrest
      | some p =>
        obtain ⟨w, lo, hi⟩ := p
        by_cases hw1 : w = 1
        · subst hw1
          simp only [if_pos]
          rw [utf8Valid_cons1 b0 lo hi _ hl]
          exact ih false rest hrest
        · simp only [if_neg hw1]
          cases rest with
          | nil =>
            rw [utf8Valid_invalid_front]
            exact ih true [] (by simp)
          | cons b1 rest1 =>
            have hrest1 : rest1.length ≤ fuel := by simp at h; omega
            have hbrest1 : (b1 :: rest1).length ≤ fuel := by simp at h ⊢; omega
            cases hb1 : (lo ≤ b1 && b1 ≤ hi) with
            | false =>
              simp only [hb1, Bool.not_false, if_true]
              rw [utf8Valid_invalid_front]
              exact ih true (b1 :: rest1) hbrest1
            | true =>
              simp only [hb1, Bool.not_true, Bool.false_eq_true, if_false]
              by_cases hw2 : w = 2
              · subst hw2
                simp only [if_pos]
                rw [utf8Valid_cons2 b0 b1 lo hi _ hl hb1]
                exact ih false rest1 hrest1
              · simp only [if_neg hw2]
                cases rest1 with
                | nil =>
                  rw [utf8Valid_invalid_front]
                  exact ih true [b1] hbrest1
                | cons b2 rest2 =>
                  have hrest2 : rest2.length ≤ fuel := by simp at h; omega
                  have hbrest2 : (b1 :: b2 :: rest2).length ≤ fuel := by simp at h ⊢; omega
                  cases hb2 : isCont b2 with
                  | false =>
                    simp only [hb2, Bool.not_false, if_true]
                    rw [utf8Valid_invalid_front]
                    exact ih true (b1 :: b2 :: rest2) hbrest2
                  | true =>
                    simp only [hb2, Bool.not_true, Bool.false_eq_true, if_false]
                    by_cases hw3 : w = 3
                    · subst hw3
                      simp only [if_pos]
                      rw [utf8Valid_cons3 b0 b1 b2 lo hi _ hl hb1 hb2]
                      exact ih false rest2 hrest2
                    · simp only [if_neg hw3]
                      cases rest2 with
                      | nil =>
                        rw [utf8Valid_invalid_front]
                        exact ih true [b1, b2] hbrest2
                      | cons b3 rest3 =>
                        have hrest3 : rest3.length ≤ fuel := by simp at h; omega
                        have hbrest3 : (b1 :: b2 :: b3 :: rest3).length ≤ fuel := by
                          simp at h ⊢; omega
                        cases hb34 : (isCont b3 && w = 4) with
                        | false =>
                          simp only [hb34, Bool.false_eq_true, if_false]
                          rw [utf8Valid_invalid_front]
                          exact ih true (b1 :: b2 :: b3 :: rest3) hbrest3
                        | true =>
                          simp only [hb34, if_true]
                          simp only [Bool.and_eq_true, decide_eq_true_eq] at hb34
                          obtain ⟨hb3, hw4⟩ := hb34
                          subst hw4
                          rw [utf8Valid_cons4 b0 b1 b2 b3 lo hi _ hl hb1 hb2 hb3]
                          exact ih false rest3 hrest3

/-- The sanitizer emits valid UTF-8: the byte-level statement of the
route-sanitization guarantee. -/
theorem toValidUTF8_valid (s : GoStr) : utf8Valid (toValidUTF8 s) = true :=
  sanitizeFuel_valid s.length false s le_rfl

/-- On input that is already valid UTF-8 the sanitizer is the identity, for
any fuel covering the input length and any run flag. -/
theorem sanitizeFuel_id (fuel : Nat) :
    ∀ (inv : Bool) (s : GoStr), s.length ≤ fuel → utf8Valid s = true →
      sanitizeFuel fuel inv s = s := by
  induction fuel with
  | zero =>
    intro inv s h _
    have hs : s = [] := List.eq_nil_of_length_eq_zero (Nat.le_zero.mp h)
    subst hs
    rfl
  | succ fuel ih =>
    intro inv s h hval
    cases s with
    | nil => rfl
    | cons b0 rest =>
      have hrest : rest.length ≤ fuel := by simp at h; omega
      rw [sanitizeFuel]
      cases hl : leadInfo b0 with
      | none =>
        rw [utf8Valid_inv_none b0 rest hl] at hval
        exact absurd hval (by simp)
      | some p =>
        obtain ⟨w, lo, hi⟩ := p
        by_cases hw1 : w = 1
        · subst hw1
          simp only [if_pos]
          rw [utf8Valid_cons1 b0 lo hi rest hl] at hval
          rw [ih false rest hrest hval]
        · simp only [if_neg hw1]
          cases rest with
          | nil =>
            rw [utf8Valid_inv_nil1 b0 w lo hi hl hw1] at hval
            exact absurd hval (by simp)
          | cons b1 rest1 =>
            have hrest1 : rest1.length ≤ fuel := by simp at h; omega
            cases hb1 : (lo ≤ b1 && b1 ≤ hi) with
            | false =>
              rw [utf8Valid_inv_b1 b0 b1 w lo hi rest1 hl hw1 hb1] at hval
              exact absurd hval (by simp)
            | true =>
              simp only [hb1, Bool.not_true, Bool.false_eq_true, if_false]
              by_cases hw2 : w = 2
              · subst hw2
                simp only [if_pos]
                rw [utf8Valid_cons2 b0 b1 lo hi rest1 hl hb1] at hval
                rw [ih false rest1 hrest1 hval]
              · simp only [if_neg hw2]
                cases rest1 with
                | nil =>
                  rw [utf8Valid_inv_nil2 b0 b1 w lo hi hl hw1 hw2 hb1] at hval
                  exact absurd hval (by simp)
                | cons b2 rest2 =>
                  have hrest2 : rest2.length ≤ fuel := by simp at h; omega
                  cases hb2 : isCont b2 with
                  | false =>
                    rw [utf8Valid_inv_b2 b0 b1 b2 w lo hi rest2 hl hw1 hw2 hb1 hb2] at hval
                    exact absurd hval (by simp)
                  | true =>
                    simp only [hb2, Bool.not_true, Bool.false_eq_true, if_false]
                    by_cases hw3 : w = 3
                    · subst hw3
                      simp only [if_pos]
                      rw [utf8Valid_cons3 b0 b1 b2 lo hi rest2 hl hb1 hb2] at hval
                      rw [ih false rest2 hrest2 hval]
                    · simp only [if_neg hw3]
                      cases rest2 with
                      | nil =>
                        rw [utf8Valid_inv_nil3 b0 b1 b2 w lo hi hl hw1 hw2 hw3 hb1 hb2] at hval
                        exact absurd hval (by simp)
                      | cons b3 rest3 =>
                        have hrest3 : rest3.length ≤ fuel := by simp at h; omega
                        cases hb34 : (isCont b3 && w = 4) with
                        | false =>
                          rw [utf8Valid_inv_b3 b0 b1 b2 b3 w lo hi rest3 hl hw1 hw2 hw3 hb1
                            hb2 hb34] at hval
                          exact absurd hval (by simp)
                        | true =>
                          simp only [hb34, if_true]
                          have hb34x := hb34
                          simp only [Bool.and_eq_true, decide_eq_true_eq] at hb34x
                          obtain ⟨hb3, hw4⟩ := hb34x
                          subst hw4
                          rw [utf8Valid_cons4 b0 b1 b2 b3 lo hi rest3 hl hb1 hb2 hb3] at hval
                          rw [ih false rest3 hrest3 hval]

/-- On valid UTF-8 input the sanitizer returns the input unchanged. -/
theorem toValidUTF8_of_valid (s : GoStr) (h : utf8Valid s = true) :
    toValidUTF8 s = s :=
  sanitizeFuel_id s.length false s le_rfl h


/-- Fold of the header sizes starting from an arbitrary accumulator equals
the accumulator plus the fold from zero. -/
theorem headerFold_shift (hs : List (GoStr × List GoStr)) (s : Int) :
    hs.foldl
      (fun acc nv => acc + (nv.1.length : Int)
        + nv.2.foldl (fun a v => a + (v.length : Int)) 0) s
      = s + headerBytes hs := by
  induction hs generalizing s with
  | nil => simp [headerBytes]
  | cons nv t ihh =>
    rw [headerBytes, List.foldl_cons, List.foldl_cons, ihh, ihh]
    ring

/-- Closed form of the approximate request size: the summand decomposition
of `computeApproximateRequestSize`, with the content length added exactly
when it differs from -1. -/
theorem computeApproximateRequestSize_eq (r : Request) :
    computeApproximateRequestSize r =
      (match r.URL with
        | some u => (u.Path.length : Int)
        | none => 0)
      + (r.Method.length : Int) + (r.Proto.length : Int) + headerBytes r.Header
      + (r.Host.length : Int)
      + (if r.ContentLength = -1 then 0 else r.ContentLength) := by
  obtain ⟨u, m, p, hd, ho, cl⟩ := r
  unfold computeApproximateRequestSize
  simp only [headerFold_shift]
  by_cases hcl : cl = -1
  · rw [if_neg (by simp [hcl]), if_pos hcl]
    cases u <;> simp
  · rw [if_pos hcl, if_neg hcl]

/-- The returned value of a non-skipped run is the handler result. -/
theorem middlewareRun_result (conf : MiddlewareConfig) (next : Handler) (c : Context)
    (t1 t2 : Int) (hskip : skipApplies conf c = false) :
    (middlewareRun conf next c t1 t2).result = (next c).2 := by
  simp [middlewareRun, hskip]

/-- The emissions of a non-skipped run: the four measurements, in source
order, all under the shared attribute set. -/
theorem middlewareRun_emissions (conf : MiddlewareConfig) (next : Handler) (c : Context)
    (t1 t2 : Int) (hskip : skipApplies conf c = false) :
    (middlewareRun conf next c t1 t2).emissions =
      [ Emission.counterAdd "requests_total" 1 (sharedAttrs conf (next c).1 (next c).2),
        Emission.histRecord "request_size_bytes"
          ((computeApproximateRequestSize c.request : ℚ))
          (sharedAttrs conf (next c).1 (next c).2),
        Emission.histRecord "response_size_bytes" (((next c).1.response.Size : ℚ))
          (sharedAttrs conf (next c).1 (next c).2),
        Emission.histRecord "request_duration_seconds" (((t2 - t1 : Int) : ℚ) / 1000000000)
          (sharedAttrs conf (next c).1 (next c).2) ] := by
  simp [middlewareRun, hskip]

/-- The shared attribute set is what the first emission carries. -/
theorem firstAttrs_middlewareRun (conf : MiddlewareConfig) (next : Handler) (c : Context)
    (t1 t2 : Int) (hskip : skipApplies conf c = false) :
    firstAttrs (middlewareRun conf next c t1 t2) = sharedAttrs conf (next c).1 (next c).2 := by
  simp only [firstAttrs]
  rw [middlewareRun_emissions conf next c t1 t2 hskip]
  rfl

/-- Lookup skips an entry with a different key. -/
theorem lookupAttr_cons_ne (key k : String) (v : AttrValue) (rest : List KeyValue)
    (h : k ≠ key) : lookupAttr key (⟨k, v⟩ :: rest) = lookupAttr key rest := by
  rw [lookupAttr]
  exact if_neg h

/-- Lookup returns the value of the first entry with the key. -/
theorem lookupAttr_cons_eq (key k : String) (v : AttrValue) (rest : List KeyValue)
    (h : k = key) : lookupAttr key (⟨k, v⟩ :: rest) = some v := by
  rw [lookupAttr]
  exact if_pos h

/-- The route attribute of a non-skipped run is the sanitized route label. -/
theorem routeAttr_middlewareRun (conf : MiddlewareConfig) (next : Handler) (c : Context)
    (t1 t2 : Int) (hskip : skipApplies conf c = false) :
    routeAttrOf (middlewareRun conf next c t1 t2)
      = some (.str (toValidUTF8 (routeLabel conf.DoNotUseRequestPathFor404
          (next c).1.path (next c).1.request.urlPath))) := by
  rw [routeAttrOf, firstAttrs_middlewareRun conf next c t1 t2 hskip]
  simp only [sharedAttrs, List.cons_append]
  rw [lookupAttr_cons_ne _ _ _ _ (by decide), lookupAttr_cons_eq _ _ _ _ rfl]

/-- The status attribute of a non-skipped run is the computed status. -/
theorem statusAttr_middlewareRun (conf : MiddlewareConfig) (next : Handler) (c : Context)
    (t1 t2 : Int) (hskip : skipApplies conf c = false) :
    statusAttrOf (middlewareRun conf next c t1 t2)
      = some (.int (recordedStatus (next c).1.response.Status (next c).2)) := by
  rw [statusAttrOf, firstAttrs_middlewareRun conf next c t1 t2 hskip]
  simp only [sharedAttrs, List.cons_append]
  rw [lookupAttr_cons_ne _ _ _ _ (by decide), lookupAttr_cons_ne _ _ _ _ (by decide),
      lookupAttr_cons_ne _ _ _ _ (by decide), lookupAttr_cons_ne _ _ _ _ (by decide),
      lookupAttr_cons_ne _ _ _ _ (by decide), lookupAttr_cons_eq _ _ _ _ rfl]

/-- The request of the worked example in the specification: method GET,
path /x, protocol HTTP/1.1, one header A with value b, host h, content
length 0 (all strings as their ASCII bytes). -/
def exampleRequest : Request :=
  { URL := some ⟨[47, 120]⟩, Method := [71, 69, 84],
    Proto := [72, 84, 84, 80, 47, 49, 46, 49],
    Header := [([65], [[98]])], Host := [104], ContentLength := 0 }

/-- A context carrying the example request, an empty route template, and a
written 200 response of size 5. -/
def exampleContext : Context :=
  { request := exampleRequest, response := { Status := 200, Size := 5 },
    path := [], scheme := [104, 116, 116, 112] }

/-- A handler that leaves the context unchanged and returns nil. -/
def idHandler : Handler := fun c => (c, none)

/-- A configuration with no skip predicate, no labels, fallback enabled. -/
def plainConf : MiddlewareConfig :=
  { Skipper := none, ServiceName := [], LabelFuncs := [],
    DoNotUseRequestPathFor404 := false }

/-- A configuration whose skip predicate fires only on an empty method, so
it does not bypass the example context. -/
def skipFalseConf : MiddlewareConfig :=
  { Skipper := some (fun c => c.request.Method.isEmpty), ServiceName := [],
    LabelFuncs := [], DoNotUseRequestPathFor404 := false }

/-- A configuration whose skip predicate bypasses every request. -/
def skipAllConf : MiddlewareConfig :=
  { Skipper := some (fun _ => true), ServiceName := [], LabelFuncs := [],
    DoNotUseRequestPathFor404 := false }

/-- A configuration with one label function reading the request host. -/
def labelConf : MiddlewareConfig :=
  { Skipper := none, ServiceName := [109],
    LabelFuncs := [("tenant", fun c _ => c.request.Host)],
    DoNotUseRequestPathFor404 := false }

/-- A request with declared content length -2: negative but not the -1
sentinel. -/
def negativeLengthRequest : Request :=
  { URL := some ⟨[]⟩, Method := [], Proto := [], Header := [], Host := [],
    ContentLength := -2 }

/-- A request whose raw URL path is the single byte 0xFF, not valid UTF-8. -/
def invalidPathRequest : Request :=
  { URL := some ⟨[0xFF]⟩, Method := [], Proto := [], Header := [], Host := [],
    ContentLength := 0 }

/-- A context whose route template is empty and whose raw request path is
the single byte 0xFF, which is not valid UTF-8. -/
def invalidPathContext : Context :=
  { request := invalidPathRequest, response := { Status := 404, Size := 0 },
    path := [], scheme := [] }

/-- A request whose URL pointer is nil. -/
def nilURLRequest : Request :=
  { URL := none, Method := [80], Proto := [], Header := [], Host := [],
    ContentLength := -1 }


/-- C1: For every request not bypassed by the skip predicate, the value
returned by the middleware-wrapped handler equals the value returned by the
inner handler: a nil result stays nil and an error is returned unmodified. -/
theorem middleware_returns_handler_result (conf : MiddlewareConfig) (next : Handler)
    (c : Context) (t1 t2 : Int) (hskip : skipApplies conf c = false) :
    (middlewareRun conf next c t1 t2).result = (next c).2 ∧
    ((next c).2 = none → (middlewareRun conf next c t1 t2).result = none) ∧
    (∀ e : HandlerError, (next c).2 = some e →
      (middlewareRun conf next c t1 t2).result = some e) := by
  have h := middlewareRun_result conf next c t1 t2 hskip
  exact ⟨h, fun h0 => h.trans h0, fun e h0 => h.trans h0⟩

/-- Witness for C1: a configured skip predicate that evaluates false on the
example request, a handler returning nil, and the middleware returning
nil. -/
theorem middleware_returns_handler_result_witness :
    (middlewareRun skipFalseConf idHandler exampleContext 0 7).result = none :=
  (middleware_returns_handler_result skipFalseConf idHandler exampleContext 0 7
    (by decide)).2.1 rfl

/-- C2: the recorded status attribute is the response's written status when
the handler returns no error; the extracted structured code when one exists
and is neither 0 nor 200; and 500 whenever an error is present and the
status resulting from extraction is 0 or 200. -/
theorem status_attribute_determination (conf : MiddlewareConfig) (next : Handler)
    (c : Context) (t1 t2 : Int) (hskip : skipApplies conf c = false) :
    ((next c).2 = none →
      statusAttrOf (middlewareRun conf next c t1 t2)
        = some (.int (next c).1.response.Status)) ∧
    (∀ e he, (next c).2 = some e → e.asHTTPError = some he →
      ¬(he.Code = 0 ∨ he.Code = 200) →
      statusAttrOf (middlewareRun conf next c t1 t2) = some (.int he.Code)) ∧
    (∀ e, (next c).2 = some e →
      ((match e.asHTTPError with
        | some he => he.Code
        | none => (next c).1.response.Status) = 0 ∨
       (match e.asHTTPError with
        | some he => he.Code
        | none => (next c).1.response.Status) = 200) →
      statusAttrOf (middlewareRun conf next c t1 t2) = some (.int 500)) := by
  have hs := statusAttr_middlewareRun conf next c t1 t2 hskip
  refine ⟨?_, ?_, ?_⟩
  · intro h0
    rw [hs, h0]
    rfl
  · intro e he h0 hhe hne
    rw [hs, h0]
    have h1 : he.Code ≠ 0 := fun hh => hne (Or.inl hh)
    have h2 : he.Code ≠ 200 := fun hh => hne (Or.inr hh)
    simp [recordedStatus, hhe, h1, h2]
  · intro e h0 hor
    rw [hs, h0]
    cases hhe : e.asHTTPError with
    | some he =>
      simp only [hhe] at hor
      simp only [recordedStatus, hhe]
      rcases hor with h | h <;> rw [if_pos (by simp [h])]
    | none =>
      simp only [hhe] at hor
      simp only [recordedStatus, hhe]
      rcases hor with h | h <;> rw [if_pos (by simp [h])]

/-- Witness for C2: a handler returning no error with a written 200 status
records status 200. -/
theorem status_attribute_determination_witness :
    statusAttrOf (middlewareRun plainConf idHandler exampleContext 0 0)
      = some (.int 200) :=
  (status_attribute_determination plainConf idHandler exampleContext 0 0 (by decide)).1 rfl

/-- C3 counterexample: the claim says the content length contributes only
when non-negative and never negatively, but the code only tests against -1
(src/metrics.go line 168); at declared content length -2 the computed size
is -2, a negative contribution, and differs from the size the
specification's wording prescribes. -/
theorem request_size_negative_content_length_cex :
    computeApproximateRequestSize negativeLengthRequest = -2 ∧
    specRequestSize negativeLengthRequest = 0 ∧
    computeApproximateRequestSize negativeLengthRequest
      ≠ specRequestSize negativeLengthRequest ∧
    computeApproximateRequestSize negativeLengthRequest < 0 := by
  decide

/-- C3 amended: the approximate request size is the sum of URL path length
(zero when the URL is nil), method, protocol, header-name and header-value,
and host byte lengths, plus the declared content length whenever it differs
from the unknown sentinel -1 (so -1 contributes zero); on the worked
example the size is 16. -/
theorem request_size_formula :
    (∀ r : Request,
      computeApproximateRequestSize r =
        (match r.URL with
          | some u => (u.Path.length : Int)
          | none => 0)
        + (r.Method.length : Int) + (r.Proto.length : Int) + headerBytes r.Header
        + (r.Host.length : Int)
        + (if r.ContentLength = -1 then 0 else r.ContentLength)) ∧
    computeApproximateRequestSize exampleRequest = 16 :=
  ⟨computeApproximateRequestSize_eq, by decide⟩

/-- C4 counterexample: with the fallback enabled and an empty route
template, a raw request path consisting of the invalid byte 0xFF is
recorded as the replacement character, not as the raw path, so the recorded
route attribute does not equal the raw request URL path. -/
theorem route_attribute_not_raw_path_cex :
    routeAttrOf (middlewareRun plainConf idHandler invalidPathContext 0 0)
      = some (.str [0xEF, 0xBF, 0xBD]) ∧
    routeAttrOf (middlewareRun plainConf idHandler invalidPathContext 0 0)
      ≠ some (.str invalidPathContext.request.urlPath) := by
  decide

/-- C4 amended: with an empty route template and the fallback flag unset,
the recorded route attribute is the UTF-8 sanitization of the raw request
URL path — the raw path itself whenever that path is valid UTF-8; with the
flag set it stays empty; with a non-empty template it is the sanitized
template regardless of the flag. -/
theorem route_attribute_selection (conf : MiddlewareConfig) (next : Handler)
    (c : Context) (t1 t2 : Int) (hskip : skipApplies conf c = false) :
    ((next c).1.path = [] → conf.DoNotUseRequestPathFor404 = false →
      routeAttrOf (middlewareRun conf next c t1 t2)
        = some (.str (toValidUTF8 (next c).1.request.urlPath))) ∧
    ((next c).1.path = [] → conf.DoNotUseRequestPathFor404 = false →
      utf8Valid (next c).1.request.urlPath = true →
      routeAttrOf (middlewareRun conf next c t1 t2)
        = some (.str (next c).1.request.urlPath)) ∧
    ((next c).1.path = [] → conf.DoNotUseRequestPathFor404 = true →
      routeAttrOf (middlewareRun conf next c t1 t2) = some (.str [])) ∧
    ((next c).1.path ≠ [] →
      routeAttrOf (middlewareRun conf next c t1 t2)
        = some (.str (toValidUTF8 (next c).1.path))) := by
  have hr := routeAttr_middlewareRun conf next c t1 t2 hskip
  refine ⟨?_, ?_, ?_, ?_⟩
  · intro hp hf
    rw [hr]
    simp [routeLabel, hp, hf]
  · intro hp hf hv
    rw [hr]
    simp [routeLabel, hp, hf, toValidUTF8_of_valid _ hv]
  · intro hp hf
    rw [hr]
    simp only [routeLabel, hp, hf]
    rfl
  · intro hp
    rw [hr]
    simp [routeLabel, hp]

/-- Witness for C4: empty template, fallback enabled, valid raw path /x:
the recorded route attribute is the raw path itself. -/
theorem route_attribute_selection_witness :
    routeAttrOf (middlewareRun plainConf idHandler exampleContext 0 0)
      = some (.str [47, 120]) :=
  (route_attribute_selection plainConf idHandler exampleContext 0 0
    (by decide)).2.1 rfl rfl (by decide)

/-- C5: when a configured skip predicate evaluates true, the middleware
performs zero measurement emissions and returns the handler's result
directly. -/
theorem skipper_bypasses_all_emissions (conf : MiddlewareConfig) (next : Handler)
    (c : Context) (t1 t2 : Int) (sk : Context → Bool)
    (hconf : conf.Skipper = some sk) (hsk : sk c = true) :
    (middlewareRun conf next c t1 t2).emissions = [] ∧
    (middlewareRun conf next c t1 t2).result = (next c).2 := by
  have hskip : skipApplies conf c = true := by
    simp [skipApplies, hconf, hsk]
  constructor <;> simp [middlewareRun, hskip]

/-- Witness for C5: the always-true skip predicate yields no emissions and
the handler's nil result. -/
theorem skipper_bypasses_all_emissions_witness :
    (middlewareRun skipAllConf idHandler exampleContext 3 9).emissions = [] ∧
    (middlewareRun skipAllConf idHandler exampleContext 3 9).result = none :=
  skipper_bypasses_all_emissions skipAllConf idHandler exampleContext 3 9
    (fun _ => true) rfl rfl

/-- C6: every instrumented request emits exactly the four measurements,
all under one attribute set holding exactly the service name, the sanitized
route, the method, the scheme under the host key, the status under two
distinct status-code keys, and one string attribute per configured label
function. -/
theorem emissions_attribute_set (conf : MiddlewareConfig) (next : Handler) (c : Context)
    (t1 t2 : Int) (hskip : skipApplies conf c = false) :
    (middlewareRun conf next c t1 t2).emissions =
      [ Emission.counterAdd "requests_total" 1 (sharedAttrs conf (next c).1 (next c).2),
        Emission.histRecord "request_size_bytes"
          ((computeApproximateRequestSize c.request : ℚ))
          (sharedAttrs conf (next c).1 (next c).2),
        Emission.histRecord "response_size_bytes" (((next c).1.response.Size : ℚ))
          (sharedAttrs conf (next c).1 (next c).2),
        Emission.histRecord "request_duration_seconds" (((t2 - t1 : Int) : ℚ) / 1000000000)
          (sharedAttrs conf (next c).1 (next c).2) ] ∧
    sharedAttrs conf (next c).1 (next c).2 =
      [ ⟨"service.name", .str conf.ServiceName⟩,
        ⟨"http.route", .str (toValidUTF8 (routeLabel conf.DoNotUseRequestPathFor404
          (next c).1.path (next c).1.request.urlPath))⟩,
        ⟨"http.request.method", .str (next c).1.request.Method⟩,
        ⟨"host.name", .str (next c).1.scheme⟩,
        ⟨"http.status_code", .int (recordedStatus (next c).1.response.Status (next c).2)⟩,
        ⟨"http.response.status_code",
          .int (recordedStatus (next c).1.response.Status (next c).2)⟩ ]
      ++ conf.LabelFuncs.map (fun kv => ⟨kv.1, .str (kv.2 (next c).1 (next c).2)⟩) ∧
    ("http.status_code" : String) ≠ "http.response.status_code" :=
  ⟨middlewareRun_emissions conf next c t1 t2 hskip, rfl, by decide⟩

/-- Witness for C6: the run with one configured label function emits
exactly four measurements. -/
theorem emissions_attribute_set_witness :
    (middlewareRun labelConf idHandler exampleContext 0 0).emissions.length = 4 := by
  rw [(emissions_attribute_set labelConf idHandler exampleContext 0 0 (by decide)).1]
  rfl

/-- C7: on every instrumented request, each emission's attribute set ends
with exactly one string attribute per configured label function, in map
order, each valued at that function applied to the (post-handler) context
and the handler's error, under its configured key. -/
theorem label_functions_once_per_request (conf : MiddlewareConfig) (next : Handler)
    (c : Context) (t1 t2 : Int) (hskip : skipApplies conf c = false) :
    ∀ em ∈ (middlewareRun conf next c t1 t2).emissions,
      em.attrs.drop 6
        = conf.LabelFuncs.map
            (fun kv => ⟨kv.1, AttrValue.str (kv.2 (next c).1 (next c).2)⟩) := by
  intro em hm
  rw [middlewareRun_emissions conf next c t1 t2 hskip] at hm
  simp only [List.mem_cons, List.not_mem_nil, or_false] at hm
  rcases hm with rfl | rfl | rfl | rfl <;>
    simp [Emission.attrs, sharedAttrs]

/-- Witness for C7: with one configured label function reading the host,
the counter emission's attributes end with exactly that one label, valued
at the example host h. -/
theorem label_functions_once_per_request_witness :
    (Emission.counterAdd "requests_total" 1
        (sharedAttrs labelConf exampleContext none)).attrs.drop 6
      = [⟨"tenant", AttrValue.str [104]⟩] := by
  have h := label_functions_once_per_request labelConf idHandler exampleContext 0 0
    (by decide)
    (Emission.counterAdd "requests_total" 1 (sharedAttrs labelConf exampleContext none))
    (by decide)
  rw [h]
  rfl

/-- C8: the emitted route attribute is the sanitizer's output, and any
string recorded under the route key is valid UTF-8 — raw invalid bytes are
never propagated. -/
theorem route_attribute_valid_utf8 (conf : MiddlewareConfig) (next : Handler)
    (c : Context) (t1 t2 : Int) (hskip : skipApplies conf c = false) :
    routeAttrOf (middlewareRun conf next c t1 t2)
      = some (.str (toValidUTF8 (routeLabel conf.DoNotUseRequestPathFor404
          (next c).1.path (next c).1.request.urlPath))) ∧
    (∀ v : GoStr, routeAttrOf (middlewareRun conf next c t1 t2) = some (.str v) →
      utf8Valid v = true) := by
  have hr := routeAttr_middlewareRun conf next c t1 t2 hskip
  refine ⟨hr, ?_⟩
  intro v hv
  rw [hr] at hv
  simp only [Option.some.injEq, AttrValue.str.injEq] at hv
  rw [← hv]
  exact toValidUTF8_valid _

/-- Witness for C8: the route value recorded for the invalid-byte path is
the replacement character, which is valid UTF-8. -/
theorem route_attribute_valid_utf8_witness :
    utf8Valid [0xEF, 0xBF, 0xBD] = true :=
  (route_attribute_valid_utf8 plainConf idHandler invalidPathContext 0 0
    (by decide)).2 [0xEF, 0xBF, 0xBD] (by decide)

/-- C9: for every configuration and every outcome of instrument creation,
ToMiddleware returns a nil error, so NewMiddlewareWithConfig always takes
the success branch and its panic branch is unreachable. -/
theorem toMiddleware_never_errors (conf : MiddlewareConfig) (errs : InstrumentErrors) :
    (ToMiddleware conf errs).2 = none ∧
    NewMiddlewareWithConfig conf errs = Except.ok (ToMiddleware conf errs).1 :=
  ⟨rfl, rfl⟩

/-- C10: on a request whose URL pointer is nil the size computation is
defined and the path contributes zero, the other summands unchanged. -/
theorem request_size_total_on_nil_url (r : Request) (h : r.URL = none) :
    computeApproximateRequestSize r =
      (r.Method.length : Int) + (r.Proto.length : Int) + headerBytes r.Header
        + (r.Host.length : Int)
        + (if r.ContentLength = -1 then 0 else r.ContentLength) := by
  rw [computeApproximateRequestSize_eq r, h]
  ring_nf

/-- Witness for C10: the concrete nil-URL request evaluates to its formula
without a path contribution. -/
theorem request_size_total_on_nil_url_witness :
    computeApproximateRequestSize nilURLRequest =
      (nilURLRequest.Method.length : Int) + (nilURLRequest.Proto.length : Int)
        + headerBytes nilURLRequest.Header + (nilURLRequest.Host.length : Int)
        + (if nilURLRequest.ContentLength = -1 then 0 else nilURLRequest.ContentLength) :=
  request_size_total_on_nil_url nilURLRequest rfl

end OtelMetricsEcho
